import Mathlib

/-!
# iban-service: request handler, response cache and pid-file guard

A shallow embedding of `iban_service.go` (`validationHandler`, `toBoolean`,
`additionalData`, `hitCache`) and of `pid.go` (`CreatePidfile`), together with
the library calls these functions rely on, followed by the properties proved
about them.

Go strings are modelled by `String`, Go `int`/`int64` values by `Int`.
-/

set_option autoImplicit false

namespace IbanService

/-! ## strconv -/

/-- The text produced by `strconv.FormatBool`. -/
def FormatBool (b : Bool) : String :=
  if b then "true" else "false"

/-! ## iban_service.go: flag parsing and the cache key -/

/-- The function `toBoolean` of `iban_service.go`: a `switch` on the raw value. -/
def toBoolean (value : String) : Bool :=
  if value = "1" then true
  else if value = "true" then true
  else false

/-- The cache key expression used three times in `validationHandler`:
`iban + strconv.FormatBool(config["getBIC"]) + strconv.FormatBool(config["validateBankCode"])`. -/
def cacheKey (iban : String) (getBIC validateBankCode : Bool) : String :=
  iban ++ FormatBool getBIC ++ FormatBool validateBankCode


/-! ## Go maps -/

/-- A Go `map[string]V`: an association list in which `mapSet` keeps one binding per key. -/
abbrev GoMap (V : Type) := List (String × V)

/-- The two-result map read `v, ok := m[k]`. -/
def mapGet {V : Type} : GoMap V → String → Option V
  | [], _ => none
  | (k', v) :: rest, k => if k' = k then some v else mapGet rest k

/-- The assignment `m[k] = v`. -/
def mapSet {V : Type} (m : GoMap V) (k : String) (v : V) : GoMap V :=
  (k, v) :: m.filter (fun e => decide (e.1 ≠ k))

/-- The one-result read `m[k]` of a `map[string]bool`: the zero value when `k` is unset. -/
def mapIndex (m : GoMap Bool) (k : String) : Bool :=
  (mapGet m k).getD false

/-! ## fmt: `Fprintf` with a format string and no operands

`validationHandler` calls `fmt.Fprintf(w, value)` with the body as the format
string and without operands. This is `doPrintf` of `fmt/print.go` specialised
to `len(a) = 0`: the argument number stays 0 and no operand is ever printed.
Strings are taken to be valid UTF-8, so that a verb is one `Char`. -/

/-- `tooLarge` of `fmt/print.go`, on the non-negative numbers `parsenum` builds. -/
def tooLarge (x : Nat) : Bool := decide (x > 1000000)

/-- The loop of `parsenum(s, start, end)` over `s[start:end]`: the number read, whether a digit
was read, and the characters of `s[newi:end]`; on overflow `newi = end`. -/
def parsenumLoop : Nat → Bool → List Char → Nat × Bool × List Char
  | num, isnum, [] => (num, isnum, [])
  | num, isnum, ch :: rest =>
    if '0' ≤ ch ∧ ch ≤ '9' then
      if tooLarge num then (0, false, [])
      else parsenumLoop (num * 10 + (ch.toNat - '0'.toNat)) true rest
    else (num, isnum, ch :: rest)

/-- `parsenum` of `fmt/print.go`. -/
def parsenum (s : List Char) : Nat × Bool × List Char :=
  parsenumLoop 0 false s

/-- `parseArgNumber(format)` for a format that starts with `[`: the number of characters to
skip (`wid`) and `ok`. The index itself is dropped: with no operands it is never in range. -/
def parseArgNumber (format : List Char) : Nat × Bool :=
  if (String.mk format).utf8ByteSize < 3 then (1, false)
  else
    let inner := (format.drop 1).takeWhile (fun ch => ch != ']')
    if (format.drop 1).length = inner.length then (1, false)
    else
      let r := parsenum inner
      if !r.2.1 || r.2.2 != [] then (inner.length + 2, false)
      else (inner.length + 2, true)

/-- `argNumber(argNum, format, i, 0)`: the rest of the format, `found`, and the new value of
`goodArgNum`. With no operands an index is never in range, so any `[` clears `goodArgNum`. -/
def argNumber (format : List Char) (goodArgNum : Bool) : List Char × Bool × Bool :=
  match format with
  | '[' :: _ =>
    let r := parseArgNumber format
    (format.drop r.1, r.2, false)
  | _ => (format, false, goodArgNum)

/-- The flag characters skipped by the `simpleFormat` loop. -/
def isFlag (ch : Char) : Bool :=
  ch == '#' || ch == '0' || ch == '+' || ch == '-' || ch == ' '

/-- The width step of `doPrintf`: text written, rest of the format, `afterIndex`, `goodArgNum`. -/
def doPrintfWidth (format : List Char) (afterIndex goodArgNum : Bool) :
    List Char × List Char × Bool × Bool :=
  match format with
  | '*' :: rest => ("%!(BADWIDTH)".data, rest, false, goodArgNum)
  | _ =>
    let r := parsenum format
    ([], r.2.2, afterIndex, if afterIndex && r.2.1 then false else goodArgNum)

/-- The precision step of `doPrintf`, taken under `i+1 < end && format[i] == '.'`, that is
for a `.` that is not the last character of the format: text written, rest of the format,
`afterIndex`, `goodArgNum`. A `.` at the very end is left to be read as the verb. -/
def doPrintfPrec (format : List Char) (afterIndex goodArgNum : Bool) :
    List Char × List Char × Bool × Bool :=
  match format with
  | '.' :: next :: rest =>
    let a := argNumber (next :: rest) (if afterIndex then false else goodArgNum)
    match a.1 with
    | '*' :: rest' => ("%!(BADPREC)".data, rest', false, a.2.2)
    | _ => ([], (parsenum a.1).2.2, a.2.1, a.2.2)
  | _ => ([], format, afterIndex, goodArgNum)

/-- One verb of `doPrintf`, entered just after a `%`: the text written and the rest of the
format. -/
def doPrintfVerb (format : List Char) : List Char × List Char :=
  let a := argNumber (format.dropWhile isFlag) true
  let w := doPrintfWidth a.1 a.2.1 a.2.2
  let p := doPrintfPrec w.2.1 w.2.2.1 w.2.2.2
  let b := if p.2.2.1 then (p.2.1, true, p.2.2.2) else argNumber p.2.1 p.2.2.2
  match b.1 with
  | [] => (w.1 ++ p.1 ++ "%!(NOVERB)".data, [])
  | verb :: rest =>
    if verb = '%' then (w.1 ++ p.1 ++ ['%'], rest)
    else if !b.2.2 then (w.1 ++ p.1 ++ ("%!".data ++ [verb] ++ "(BADINDEX)".data), rest)
    else (w.1 ++ p.1 ++ ("%!".data ++ [verb] ++ "(MISSING)".data), rest)

/-- The `formatLoop` of `doPrintf`: copy the text up to the next `%`, then process one verb.
Every round consumes the `%`, so `format.length + 1` rounds are enough. -/
def doPrintfLoop : Nat → List Char → List Char
  | 0, _ => []
  | fuel + 1, format =>
    let lit := format.takeWhile (fun ch => ch != '%')
    match format.dropWhile (fun ch => ch != '%') with
    | [] => lit
    | _ :: after =>
      let v := doPrintfVerb after
      lit ++ v.1 ++ doPrintfLoop fuel v.2

/-- The bytes `fmt.Fprintf(w, format)` writes to `w`. -/
def Fprintf (format : String) : String :=
  String.mk (doPrintfLoop (format.length + 1) format.data)

/-- The bytes `fmt.Fprintln(w, s)` writes to `w`. -/
def Fprintln (s : String) : String :=
  s ++ "\n"

/-! ## go-cache

`iban_service.go` keeps its responses in a `github.com/pmylund/go-cache`
cache. The library is a dependency and not part of the repository; the
definitions below follow its `cache.go`: `New`/`newCache`, `Set` and `Get`.
Times are `UnixNano` values and durations are nanoseconds, as in Go. The
addition `time.Now().Add(d)` is taken without overflow. -/

/-- The constant `time.Second`, in nanoseconds. -/
def Second : Int := 1000000000

/-- The constant `time.Minute`, in nanoseconds. -/
def Minute : Int := 60 * Second

/-- An `Item` of go-cache: the stored object (always a string here) and its expiration time,
`0` when the item does not expire. -/
structure Item where
  Object : String
  Expiration : Int
  deriving DecidableEq, Repr

/-- The cache: its default expiration and its items. -/
structure Cache where
  defaultExpiration : Int
  items : GoMap Item
  deriving DecidableEq, Repr

/-- The constant `cache.NoExpiration`. -/
def NoExpiration : Int := -1

/-- The constant `cache.DefaultExpiration`. -/
def DefaultExpiration : Int := 0

/-- `cache.New(defaultExpiration, cleanupInterval)`: an empty cache; a default expiration of
`0` is replaced by `-1`. The cleanup interval only drives the janitor, which removes items
that `Get` already reports as absent. -/
def Cache.New (defaultExpiration _cleanupInterval : Int) : Cache :=
  { defaultExpiration := if defaultExpiration = 0 then -1 else defaultExpiration
    items := [] }

/-- `c.Set(k, x, d)` at time `now`: a duration equal to `DefaultExpiration` (`0`) is replaced
by the default expiration of the cache; a positive duration gives the expiration time
`now + d`, any other one gives `0` (no expiration). -/
def Cache.Set (c : Cache) (now : Int) (k : String) (x : String) (d : Int) : Cache :=
  let d := if d = DefaultExpiration then c.defaultExpiration else d
  let e : Int := if d > 0 then now + d else 0
  { c with items := mapSet c.items k { Object := x, Expiration := e } }

/-- `c.Get(k)` at time `now`: the object of the item under `k`, unless there is none or it has
an expiration time that `now` has passed. -/
def Cache.Get (c : Cache) (now : Int) (k : String) : Option String :=
  match mapGet c.items k with
  | none => none
  | some item =>
    if item.Expiration > 0 ∧ now > item.Expiration then none
    else some item.Object

/-- The package variable `c = cache.New(5*time.Minute, 30*time.Second)` at program start. -/
def c : Cache := Cache.New (5 * Minute) (30 * Second)

/-! ## iban_service.go: the request handler -/

/-- The result of `goiban.IsParseable`. -/
structure ParserResult where
  Valid : Bool
  Message : String
  deriving DecidableEq, Repr

/-- The collaborators of `validationHandler` that live outside the repository: the goiban
functions, `json.MarshalIndent(v, "", "  ")` (`none` for an error) and the package variable
`repo`. The types of parsed identifiers, results and the repository are parameters. -/
structure Collaborators (Iban ValidationResult Repo : Type) where
  NewValidationResult : Bool → String → String → ValidationResult
  IsParseable : String → ParserResult
  ParseToIban : String → Iban
  Validate : Iban → ValidationResult
  ValidateBankCode : Iban → ValidationResult → Repo → ValidationResult
  GetBic : Iban → ValidationResult → Repo → ValidationResult
  MarshalIndent : ValidationResult → Option String
  repo : Repo

/-- A call of a pipeline collaborator, recorded in the order in which it is made. -/
inductive Call where
  | IsParseable
  | ParseToIban
  | Validate
  | ValidateBankCode
  | GetBic
  deriving DecidableEq, Repr

/-- What `validationHandler` reads from the request: the route parameter `iban` and the raw
form values `validateBankCode` and `getBIC`. -/
structure Request where
  iban : String
  validateBankCode : String
  getBIC : String
  deriving DecidableEq, Repr

/-- The response header fields that `validationHandler` and `http.Error` touch, as they
stand when the header is written. `contentLength` is the number that `strconv.Itoa` renders
and net/http reads back. -/
structure Header where
  contentType : Option String
  accessControlAllowOrigin : Option String
  contentLength : Option Nat
  xContentTypeOptions : Option String
  deriving DecidableEq, Repr

/-- What a handler hands to the `http.ResponseWriter`: the status, the header, and the bytes
of its single `Write` call. -/
structure Response where
  status : Nat
  header : Header
  written : String
  deriving DecidableEq, Repr

/-- The body that the net/http server sends for a response, after `response.write`: a `Write`
that carries more bytes than the declared `Content-Length` is refused with `ErrContentLength`
and nothing of it is sent; any other `Write` is sent as it is. -/
def Response.delivered (r : Response) : String :=
  match r.header.contentLength with
  | some n => if r.written.utf8ByteSize > n then "" else r.written
  | none => r.written

/-- The header after lines 174 and 176 of `iban_service.go`. -/
def jsonHeader : Header :=
  { contentType := some "application/json; charset=utf-8"
    accessControlAllowOrigin := some "*"
    contentLength := none
    xContentTypeOptions := none }

/-- The function `http.Error(w, error, code)`: it deletes `Content-Length`, sets the content
type to plain text and `X-Content-Type-Options` to `nosniff`, sends status `code` and writes
the message with `fmt.Fprintln`. -/
def httpError (header : Header) (error : String) (code : Nat) : Response :=
  { status := code
    header := { header with contentLength := none
                            contentType := some "text/plain; charset=utf-8"
                            xContentTypeOptions := some "nosniff" }
    written := Fprintln error }

/-- The outcome of one handler call: the response, the cache afterwards and the collaborator
calls made. -/
structure Handled where
  response : Response
  cache : Cache
  calls : List Call
  deriving DecidableEq, Repr

/-- The function `hitCache` of `iban_service.go`, reading cache `c` at time `now`. -/
def hitCache (c : Cache) (now : Int) (iban : String) : String × Bool :=
  match c.Get now iban with
  | some val => (val, true)
  | none => ("", false)

/-- The function `additionalData` of `iban_service.go`, with the calls it makes. -/
def additionalData {Iban ValidationResult Repo : Type}
    (d : Collaborators Iban ValidationResult Repo) (iban : Iban)
    (intermediateResult : ValidationResult) (config : GoMap Bool) :
    ValidationResult × List Call :=
  let s1 : ValidationResult × List Call :=
    match mapGet config "validateBankCode" with
    | some true => (d.ValidateBankCode iban intermediateResult d.repo, [Call.ValidateBankCode])
    | _ => (intermediateResult, [])
  match mapGet config "getBIC" with
  | some true => (d.GetBic iban s1.1 d.repo, s1.2 ++ [Call.GetBic])
  | _ => s1

/-- The `config` map that `validationHandler` fills from the two form values. -/
def requestConfig (r : Request) : GoMap Bool :=
  mapSet (mapSet [] "validateBankCode" (toBoolean r.validateBankCode)) "getBIC"
    (toBoolean r.getBIC)

/-- The string `string(res)` for `res, _ := json.MarshalIndent(...)`: empty on an error. -/
def marshalled {Iban ValidationResult Repo : Type}
    (d : Collaborators Iban ValidationResult Repo) (v : ValidationResult) : String :=
  (d.MarshalIndent v).getD ""

/-- The function `validationHandler` of `iban_service.go`, run at time `now` on cache `c`.
A call is taken to be instantaneous. A body written by `fmt.Fprintf` goes out with status
200 and the header as it stands at that `Write`. -/
def validationHandler {Iban ValidationResult Repo : Type}
    (d : Collaborators Iban ValidationResult Repo) (c : Cache) (now : Int) (r : Request) :
    Handled :=
  let config := requestConfig r
  let iban := r.iban
  let key := cacheKey iban (mapIndex config "getBIC") (mapIndex config "validateBankCode")
  match hitCache c now key with
  | (value, true) =>
    { response := { status := 200, header := jsonHeader, written := Fprintf value }
      cache := c, calls := [] }
  | (_, false) =>
    if iban.utf8ByteSize = 0 then
      let strRes := marshalled d (d.NewValidationResult false "Empty request." iban)
      { response := httpError { jsonHeader with contentLength := some strRes.utf8ByteSize }
          strRes 400
        cache := c, calls := [] }
    else
      let parserResult := d.IsParseable iban
      if !parserResult.Valid then
        let strRes := marshalled d
          (d.NewValidationResult false ("Cannot parse as IBAN: " ++ parserResult.Message) iban)
        { response := { status := 200
                        header := { jsonHeader with contentLength := some strRes.utf8ByteSize }
                        written := Fprintf strRes }
          cache := c.Set now key strRes 0, calls := [Call.IsParseable] }
      else
        let parsedIban := d.ParseToIban iban
        let result := d.Validate parsedIban
        let enriched : ValidationResult × List Call :=
          if config.length > 0 then additionalData d parsedIban result config
          else (result, [])
        let strRes := marshalled d enriched.1
        { response := { status := 200
                        header := { jsonHeader with contentLength := some strRes.utf8ByteSize }
                        written := Fprintf strRes }
          cache := c.Set now key strRes 0
          calls := [Call.IsParseable, Call.ParseToIban, Call.Validate] ++ enriched.2 }

/-! ## The route

`listen` registers the handler with `router.GET("/validate/:iban", validationHandler)`.
In httprouter a `:name` parameter matches one path segment, up to the next `/` or the end of
the path, and it does not match an empty segment. -/

/-- The lookup of a request path in the router: the value of the parameter `iban` when the
path matches `/validate/:iban`, `none` when the router finds no handler for the path. -/
def routeParam (path : String) : Option String :=
  if path.data.take 10 = "/validate/".data then
    let segment := path.data.drop 10
    if segment = [] then none
    else if '/' ∈ segment then none
    else some (String.mk segment)
  else none

/-- What the service does with a `GET` request. -/
inductive Served where
  | handled (h : Handled)
  | notHandled
  deriving DecidableEq, Repr

/-- A `GET` request for `path` with the two form values, served at time `now` on cache `c`:
the router calls `validationHandler` with the matched parameter, or answers by itself
(`404 Not Found`, or a redirect to a corrected path) without calling the handler. -/
def serveGet {Iban ValidationResult Repo : Type}
    (d : Collaborators Iban ValidationResult Repo) (c : Cache) (now : Int)
    (path validateBankCode getBIC : String) : Served :=
  match routeParam path with
  | some iban =>
    Served.handled (validationHandler d c now
      { iban := iban, validateBankCode := validateBankCode, getBIC := getBIC })
  | none => Served.notHandled

/-- The cache states that `validationHandler` can leave behind, starting from the package
variable `c` and handling any requests at any times. -/
inductive Reachable {Iban ValidationResult Repo : Type}
    (d : Collaborators Iban ValidationResult Repo) : Cache → Prop where
  | start : Reachable d c
  | handle (c0 : Cache) (now : Int) (r : Request) :
      Reachable d c0 → Reachable d (validationHandler d c0 now r).cache

/-! ## Sample collaborators

A small stand-in for the goiban library and the JSON encoder, used to run the
handler on concrete requests. -/

/-- A result with the three fields that `NewValidationResult` fills, and the two that the
enrichment steps fill. -/
structure SampleResult where
  valid : Bool
  message : String
  iban : String
  bankCodeChecked : Bool
  bic : String
  deriving DecidableEq, Repr

/-- Indented JSON text of a `SampleResult`. Like `encoding/json`, it copies a `%` of a string
unchanged. -/
def sampleMarshal (v : SampleResult) : String :=
  "\x7b\n  \"valid\": " ++ FormatBool v.valid ++ ",\n  \"message\": \"" ++ v.message ++
    "\",\n  \"iban\": \"" ++ v.iban ++ "\"\n\x7d"

/-- Sample collaborators: identifiers shorter than five characters are rejected with the
message `"too short"`, all others are valid. -/
def sample : Collaborators String SampleResult Unit where
  NewValidationResult := fun valid message iban =>
    { valid := valid, message := message, iban := iban, bankCodeChecked := false, bic := "" }
  IsParseable := fun iban =>
    if iban.length < 5 then { Valid := false, Message := "too short" }
    else { Valid := true, Message := "" }
  ParseToIban := fun iban => iban
  Validate := fun iban =>
    { valid := true, message := "", iban := iban, bankCodeChecked := false, bic := "" }
  ValidateBankCode := fun _ res _ => { res with bankCodeChecked := true }
  GetBic := fun _ res _ => { res with bic := "SAMPLEBIC" }
  MarshalIndent := fun v => some (sampleMarshal v)
  repo := ()

/-! ## pid.go

`CreatePidfile` works on one file. The file system is modelled by the content
of that file (`none` when it does not exist), file contents are ASCII text
with one `Char` per byte, and the operating system by an `Env`: the id of the
running process, which file operations fail, and what probing a pid gives. -/

/-- The digit table of `fmt`: the character of a digit below ten. -/
def digitChar (n : Nat) : Char :=
  match n with
  | 0 => '0' | 1 => '1' | 2 => '2' | 3 => '3' | 4 => '4'
  | 5 => '5' | 6 => '6' | 7 => '7' | 8 => '8' | _ => '9'

/-- The decimal loop of `fmtInteger`: the last digit is `u % 10`, the digits before it are those
of `u / 10`. Fuel `u` is enough, since `u / 10 < u` for `u ≥ 10`. -/
def fmtDecimal : Nat → Nat → List Char
  | 0, u => [digitChar u]
  | fuel + 1, u =>
    if u ≥ 10 then fmtDecimal fuel (u / 10) ++ [digitChar (u % 10)]
    else [digitChar u]

/-- The text that `fmt.Fprintf(f, "%d", n)` writes. -/
def formatInt (n : Int) : String :=
  if n < 0 then String.mk ('-' :: fmtDecimal n.natAbs n.natAbs)
  else String.mk (fmtDecimal n.toNat n.toNat)

/-- The value of a decimal digit, as in `ch -= '0'; if ch > 9 { error }`. -/
def digitVal (ch : Char) : Option Nat :=
  if '0' ≤ ch ∧ ch ≤ '9' then some (ch.toNat - '0'.toNat) else none

/-- The digit loop `n = n*10 + int(ch)` of `strconv.Atoi`, failing on a non-digit. -/
def parseDigits : List Char → Nat → Option Nat
  | [], n => some n
  | ch :: rest, n =>
    match digitVal ch with
    | none => none
    | some v => parseDigits rest (n * 10 + v)

/-- `strconv.Atoi` on a 64-bit platform, `none` for an error: an optional sign, at least one
digit, digits only, and a value that fits `int`. -/
def Atoi (s : String) : Option Int :=
  match s.data with
  | [] => none
  | '-' :: rest =>
    if rest = [] then none
    else match parseDigits rest 0 with
      | none => none
      | some n => if n ≤ 2 ^ 63 then some (-(n : Int)) else none
  | '+' :: rest =>
    if rest = [] then none
    else match parseDigits rest 0 with
      | none => none
      | some n => if n < 2 ^ 63 then some (n : Int) else none
  | cs =>
    match parseDigits cs 0 with
    | none => none
    | some n => if n < 2 ^ 63 then some (n : Int) else none

/-- An open file handle: the content of the file and the offset of the handle. -/
structure OpenFile where
  content : List Char
  offset : Nat
  deriving DecidableEq, Repr

/-- `ioutil.ReadAll(f)`: the bytes from the offset to the end; the offset moves to the end. -/
def OpenFile.ReadAll (f : OpenFile) : List Char × OpenFile :=
  (f.content.drop f.offset, { f with offset := max f.offset f.content.length })

/-- `f.Truncate(0)`: the content is dropped, the offset stays. -/
def OpenFile.Truncate0 (f : OpenFile) : OpenFile :=
  { f with content := [] }

/-- `f.Seek(0, 0)`: the offset goes back to the start. -/
def OpenFile.Seek0 (f : OpenFile) : OpenFile :=
  { f with offset := 0 }

/-- A write at the offset: the bytes before the offset stay (a gap is filled with NUL bytes),
the new bytes replace what was there, and the bytes after them stay. -/
def OpenFile.Write (f : OpenFile) (bytes : List Char) : OpenFile :=
  { content := f.content.take f.offset ++
      List.replicate (f.offset - f.content.length) (Char.ofNat 0) ++ bytes ++
      f.content.drop (f.offset + bytes.length)
    offset := f.offset + bytes.length }

/-- What `os.FindProcess(pid)` followed by `process.Signal(syscall.Signal(0))` gives. -/
inductive Probe where
  | lookupError
  | signalError
  | alive
  deriving DecidableEq, Repr

/-- The operating system as seen by one run of `CreatePidfile`. -/
structure Env where
  pid : Int
  mkdirAllFails : Bool
  statFails : Bool
  openFails : Bool
  readFails : Bool
  truncateFails : Bool
  seekFails : Bool
  writeFails : Bool
  probe : Int → Probe

/-- No file operation fails. -/
def Env.noFaults (e : Env) : Bool :=
  !e.mkdirAllFails && !e.statFails && !e.openFails && !e.readFails &&
    !e.truncateFails && !e.seekFails && !e.writeFails

/-- The `log.Fatalf` calls of `CreatePidfile`, in source order. -/
inductive Fatal where
  | couldNotCreatePath
  | failedToStat
  | failedToOpen
  | failedToRead
  | invalidPid
  | failedToFindProcess (pid : Int)
  | stillRunning (pid : Int)
  | failedToTruncate
  | failedToSeek
  | failedToWrite
  deriving DecidableEq, Repr

/-- The outcome of `CreatePidfile`: the fatal error that ended the process, if any, and the
content of the pid file afterwards. -/
structure PidResult where
  fatal : Option Fatal
  file : Option String
  deriving DecidableEq, Repr

/-- The checks between `ReadAll` and the label `foo`: `none` when control reaches `foo`. -/
def checkRunning (e : Env) (pidBytes : List Char) : Option Fatal :=
  if pidBytes.length = 0 then none
  else
    match Atoi (String.mk pidBytes) with
    | none => some Fatal.invalidPid
    | some pid =>
      match e.probe pid with
      | Probe.lookupError => some (Fatal.failedToFindProcess pid)
      | Probe.alive => some (Fatal.stillRunning pid)
      | Probe.signalError => none

/-- The function `CreatePidfile` of `pid.go`, run in environment `e` on the pid file with
content `file`. `os.OpenFile` with `O_CREATE` creates a missing file as an empty one. -/
def CreatePidfile (e : Env) (pidFile : String) (file : Option String) : PidResult :=
  if pidFile ≠ "" then
    if e.mkdirAllFails then { fatal := some Fatal.couldNotCreatePath, file := file }
    else if e.statFails then { fatal := some Fatal.failedToStat, file := file }
    else if e.openFails then { fatal := some Fatal.failedToOpen, file := file }
    else
      let f : OpenFile := { content := (file.getD "").data, offset := 0 }
      if e.readFails then { fatal := some Fatal.failedToRead, file := some (String.mk f.content) }
      else
        let rd := f.ReadAll
        match checkRunning e rd.1 with
        | some fatal => { fatal := some fatal, file := some (String.mk rd.2.content) }
        | none =>
          if e.truncateFails then
            { fatal := some Fatal.failedToTruncate, file := some (String.mk rd.2.content) }
          else
            let f1 := rd.2.Truncate0
            if e.seekFails then
              { fatal := some Fatal.failedToSeek, file := some (String.mk f1.content) }
            else
              let f2 := f1.Seek0
              if e.writeFails then
                { fatal := some Fatal.failedToWrite, file := some (String.mk f2.content) }
              else
                { fatal := none, file := some (String.mk (f2.Write (formatInt e.pid).data).content) }
  else { fatal := none, file := file }

/-- The function `main` of `iban_service.go` after `flag.Parse()`: whether control reaches
`listen()`. A fatal error in `CreatePidfile` ends the process before that. -/
def mainReachesListen (help printVersion : Bool) (e : Env) (pidFile : String)
    (file : Option String) : Bool :=
  if help then false
  else if printVersion then false
  else if pidFile ≠ "" then (CreatePidfile e pidFile file).fatal.isNone
  else true

/-- A sample environment: process `pid` runs, no file operation fails, and probing gives
`probe`. -/
def sampleEnv (pid : Int) (probe : Int → Probe) : Env :=
  { pid := pid, mkdirAllFails := false, statFails := false, openFails := false,
    readFails := false, truncateFails := false, seekFails := false, writeFails := false,
    probe := probe }

/-! ## Properties -/

/-- Appending the text of two booleans to an identifier loses no information. -/
theorem cacheKey_inj {id id' : String} {b1 b2 b1' b2' : Bool}
    (h : cacheKey id b1 b2 = cacheKey id' b1' b2') :
    id = id' ∧ b1 = b1' ∧ b2 = b2' := by
  have hd := congrArg (fun s => s.data.reverse) h
  simp only [cacheKey, FormatBool, String.data_append, List.reverse_append] at hd
  cases b1 <;> cases b2 <;> cases b1' <;> cases b2' <;>
    simp at hd <;> exact ⟨String.ext hd, rfl, rfl⟩

/-- C1: the cache key `id ++ FormatBool getBIC ++ FormatBool validateBankCode`
is injective in the triple (identifier, getBIC, validateBankCode), the empty
identifier included. -/
theorem cacheKey_injective (id id' : String) (b1 b2 b1' b2' : Bool)
    (h : cacheKey id b1 b2 = cacheKey id' b1' b2') :
    id = id' ∧ b1 = b1' ∧ b2 = b2' :=
  cacheKey_inj h

/-- Witness for `cacheKey_injective` at the identifier `"DE12"`. -/
theorem cacheKey_injective_witness :
    cacheKey "DE12" true false = cacheKey "DE12" true false ∧
      ("DE12" = "DE12" ∧ true = true ∧ false = false) :=
  ⟨rfl, cacheKey_injective "DE12" "DE12" true false true false rfl⟩

/-- C6: `toBoolean` is a total function that returns `true` exactly on the two
strings `"1"` and `"true"`; every other string, such as the empty one, `"0"`,
`"false"`, `"TRUE"`, `"True"`, `" 1"` or `"yes"`, gives `false`. -/
theorem toBoolean_two_valued :
    (∀ v : String, toBoolean v = true ↔ (v = "1" ∨ v = "true")) ∧
    (∀ v : String, v ≠ "1" → v ≠ "true" → toBoolean v = false) ∧
    toBoolean "" = false ∧ toBoolean "0" = false ∧ toBoolean "false" = false ∧
    toBoolean "TRUE" = false ∧ toBoolean "True" = false ∧ toBoolean " 1" = false ∧
    toBoolean "yes" = false := by
  refine ⟨?_, ?_, ?_, ?_, ?_, ?_, ?_, ?_, ?_⟩
  · intro v
    unfold toBoolean
    by_cases h1 : v = "1"
    · simp [h1]
    · by_cases h2 : v = "true"
      · simp [h2]
      · simp [h1, h2]
  · intro v h1 h2
    simp [toBoolean, h1, h2]
  all_goals decide

/-! ### Maps and the cache -/

theorem mapGet_mapSet_self {V : Type} (m : GoMap V) (k : String) (v : V) :
    mapGet (mapSet m k v) k = some v := by
  simp [mapSet, mapGet]

theorem mapGet_filter_ne {V : Type} (m : GoMap V) (k k' : String) (hk : k ≠ k') :
    mapGet (m.filter (fun e => !decide (e.1 = k))) k' = mapGet m k' := by
  induction m with
  | nil => rfl
  | cons e rest ih =>
    obtain ⟨a, b⟩ := e
    by_cases ha : a = k
    · subst ha
      simp [List.filter, mapGet, ih, hk]
    · simp [List.filter, mapGet, ih, ha]

theorem mapGet_mapSet_ne {V : Type} (m : GoMap V) (k k' : String) (v : V) (hk : k ≠ k') :
    mapGet (mapSet m k v) k' = mapGet m k' := by
  simp [mapSet, mapGet, hk, mapGet_filter_ne m k k' hk]

theorem utf8ByteSize_eq_zero (s : String) : s.utf8ByteSize = 0 ↔ s = "" := by
  constructor
  · intro h
    obtain ⟨l⟩ := s
    cases l with
    | nil => rfl
    | cons a t =>
      have hpos := Char.utf8Size_pos a
      simp [String.utf8ByteSize, String.utf8ByteSize.go] at h
      omega
  · rintro rfl
    rfl

theorem requestConfig_getBIC (r : Request) :
    mapIndex (requestConfig r) "getBIC" = toBoolean r.getBIC := by
  simp [requestConfig, mapIndex, mapGet_mapSet_self]

theorem requestConfig_validateBankCode (r : Request) :
    mapIndex (requestConfig r) "validateBankCode" = toBoolean r.validateBankCode := by
  have hne : ("getBIC" : String) ≠ "validateBankCode" := by decide
  simp [requestConfig, mapIndex, mapGet_mapSet_ne _ _ _ _ hne, mapGet_mapSet_self]

/-- The key under which the handler looks a request up and stores its body. -/
theorem handler_key (r : Request) :
    cacheKey r.iban (mapIndex (requestConfig r) "getBIC")
        (mapIndex (requestConfig r) "validateBankCode") =
      cacheKey r.iban (toBoolean r.getBIC) (toBoolean r.validateBankCode) := by
  rw [requestConfig_getBIC, requestConfig_validateBankCode]

theorem hitCache_eq_of_get_none (c0 : Cache) (now : Int) (k : String)
    (h : c0.Get now k = none) : hitCache c0 now k = ("", false) := by
  simp [hitCache, h]

theorem hitCache_eq_of_get_some (c0 : Cache) (now : Int) (k v : String)
    (h : c0.Get now k = some v) : hitCache c0 now k = (v, true) := by
  simp [hitCache, h]

/-- A body stored with duration `0` on a cache whose default expiration is five minutes is
found up to five minutes later. -/
theorem get_set_zero_live (c0 : Cache) (now t : Int) (k x : String)
    (hde : c0.defaultExpiration = 5 * Minute) (ht : t ≤ now + 5 * Minute) :
    (c0.Set now k x 0).Get t k = some x := by
  have h5 : (5 * Minute : Int) > 0 := by decide
  simp only [Cache.Set, Cache.Get, DefaultExpiration, hde, mapGet_mapSet_self, if_true, h5]
  have : ¬ (now + 5 * Minute > 0 ∧ t > now + 5 * Minute) := by
    rintro ⟨_, h⟩
    omega
  simp [this]

/-- The same body is reported absent once five minutes have passed. -/
theorem get_set_zero_expired (c0 : Cache) (now t : Int) (k x : String)
    (hde : c0.defaultExpiration = 5 * Minute) (hnow : 0 ≤ now) (ht : now + 5 * Minute < t) :
    (c0.Set now k x 0).Get t k = none := by
  have h5 : (5 * Minute : Int) > 0 := by decide
  simp only [Cache.Set, Cache.Get, DefaultExpiration, hde, mapGet_mapSet_self, if_true, h5]
  have : now + 5 * Minute > 0 ∧ t > now + 5 * Minute := by
    constructor <;> omega
  simp [this]

/-! ### The handler, path by path -/

/-- A hit: the stored value goes through `Fprintf`, nothing else happens. -/
theorem validationHandler_hit {Iban ValidationResult Repo : Type}
    (d : Collaborators Iban ValidationResult Repo) (c0 : Cache) (now : Int) (r : Request)
    (v : String)
    (hhit : c0.Get now (cacheKey r.iban (toBoolean r.getBIC) (toBoolean r.validateBankCode))
      = some v) :
    validationHandler d c0 now r =
      { response := { status := 200, header := jsonHeader, written := Fprintf v }
        cache := c0, calls := [] } := by
  simp [validationHandler, handler_key, hitCache, hhit]

/-- A miss with an empty identifier: status 400 through `http.Error`, which writes the JSON
text with `Fprintln` as plain text; the cache is untouched. -/
theorem validationHandler_empty {Iban ValidationResult Repo : Type}
    (d : Collaborators Iban ValidationResult Repo) (c0 : Cache) (now : Int) (r : Request)
    (he : r.iban = "")
    (hmiss : c0.Get now (cacheKey r.iban (toBoolean r.getBIC) (toBoolean r.validateBankCode))
      = none) :
    validationHandler d c0 now r =
      { response :=
          { status := 400
            header :=
              { contentType := some "text/plain; charset=utf-8"
                accessControlAllowOrigin := some "*"
                contentLength := none
                xContentTypeOptions := some "nosniff" }
            written := marshalled d (d.NewValidationResult false "Empty request." "") ++ "\n" }
        cache := c0, calls := [] } := by
  have h0 : r.iban.utf8ByteSize = 0 := (utf8ByteSize_eq_zero _).2 he
  simp only [validationHandler, handler_key, hitCache, hmiss, h0, if_true, Fprintln, httpError,
    jsonHeader]
  rw [he]

/-- A miss with a non-empty identifier that `IsParseable` rejects. -/
theorem validationHandler_unparseable {Iban ValidationResult Repo : Type}
    (d : Collaborators Iban ValidationResult Repo) (c0 : Cache) (now : Int) (r : Request)
    (hne : r.iban ≠ "")
    (hmiss : c0.Get now (cacheKey r.iban (toBoolean r.getBIC) (toBoolean r.validateBankCode))
      = none)
    (hbad : (d.IsParseable r.iban).Valid = false) :
    validationHandler d c0 now r =
      { response :=
          { status := 200
            header := { jsonHeader with contentLength := some (marshalled d
              (d.NewValidationResult false
                ("Cannot parse as IBAN: " ++ (d.IsParseable r.iban).Message)
                r.iban)).utf8ByteSize }
            written := Fprintf (marshalled d (d.NewValidationResult false
              ("Cannot parse as IBAN: " ++ (d.IsParseable r.iban).Message) r.iban)) }
        cache := c0.Set now
          (cacheKey r.iban (toBoolean r.getBIC) (toBoolean r.validateBankCode))
          (marshalled d (d.NewValidationResult false
              ("Cannot parse as IBAN: " ++ (d.IsParseable r.iban).Message) r.iban)) 0
        calls := [Call.IsParseable] } := by
  have h0 : ¬ r.iban.utf8ByteSize = 0 := fun h => hne ((utf8ByteSize_eq_zero _).1 h)
  simp [validationHandler, handler_key, hitCache, hmiss, h0, hbad]

/-- A miss with a non-empty identifier that `IsParseable` accepts: parse, validate, enrich,
store. -/
theorem validationHandler_parseable {Iban ValidationResult Repo : Type}
    (d : Collaborators Iban ValidationResult Repo) (c0 : Cache) (now : Int) (r : Request)
    (hne : r.iban ≠ "")
    (hmiss : c0.Get now (cacheKey r.iban (toBoolean r.getBIC) (toBoolean r.validateBankCode))
      = none)
    (hok : (d.IsParseable r.iban).Valid = true) :
    validationHandler d c0 now r =
      { response :=
          { status := 200
            header := { jsonHeader with contentLength := some (marshalled d
              (additionalData d (d.ParseToIban r.iban)
                (d.Validate (d.ParseToIban r.iban)) (requestConfig r)).1).utf8ByteSize }
            written := Fprintf (marshalled d (additionalData d (d.ParseToIban r.iban)
              (d.Validate (d.ParseToIban r.iban)) (requestConfig r)).1) }
        cache := c0.Set now
          (cacheKey r.iban (toBoolean r.getBIC) (toBoolean r.validateBankCode))
          (marshalled d (additionalData d (d.ParseToIban r.iban)
              (d.Validate (d.ParseToIban r.iban)) (requestConfig r)).1) 0
        calls := [Call.IsParseable, Call.ParseToIban, Call.Validate] ++
          (additionalData d (d.ParseToIban r.iban)
              (d.Validate (d.ParseToIban r.iban)) (requestConfig r)).2 } := by
  have h0 : ¬ r.iban.utf8ByteSize = 0 := fun h => hne ((utf8ByteSize_eq_zero _).1 h)
  have hlen : (requestConfig r).length > 0 := by simp [requestConfig, mapSet]
  simp only [validationHandler, handler_key, hitCache, hmiss, h0, if_false, hok,
    Bool.not_true, hlen, if_true]
  simp

/-- Any miss with a non-empty identifier: some body `strRes` is written through `Fprintf`
and stored under the key of the request with duration `0`. -/
theorem validationHandler_miss {Iban ValidationResult Repo : Type}
    (d : Collaborators Iban ValidationResult Repo) (c0 : Cache) (now : Int) (r : Request)
    (hne : r.iban ≠ "")
    (hmiss : c0.Get now (cacheKey r.iban (toBoolean r.getBIC) (toBoolean r.validateBankCode))
      = none) :
    ∃ (strRes : String) (calls : List Call),
      validationHandler d c0 now r =
        { response := { status := 200
                        header := { jsonHeader with contentLength := some strRes.utf8ByteSize }
                        written := Fprintf strRes }
          cache := c0.Set now
            (cacheKey r.iban (toBoolean r.getBIC) (toBoolean r.validateBankCode)) strRes 0
          calls := Call.IsParseable :: calls } := by
  by_cases hbad : (d.IsParseable r.iban).Valid = false
  · exact ⟨_, [], validationHandler_unparseable d c0 now r hne hmiss hbad⟩
  · have hok : (d.IsParseable r.iban).Valid = true := by simpa using hbad
    exact ⟨_, _, validationHandler_parseable d c0 now r hne hmiss hok⟩

/-! ### Fprintf -/

theorem doPrintfLoop_no_percent (fuel : Nat) (format : List Char)
    (h : ∀ ch ∈ format, ch ≠ '%') : doPrintfLoop (fuel + 1) format = format := by
  have h1 : format.takeWhile (fun ch => ch != '%') = format := by
    rw [List.takeWhile_eq_self_iff]
    intro ch hch
    simpa using h ch hch
  have h2 : format.dropWhile (fun ch => ch != '%') = [] := by
    rw [List.dropWhile_eq_nil_iff]
    intro ch hch
    simpa using h ch hch
  simp [doPrintfLoop, h1, h2]

theorem parsenumLoop_length (num : Nat) (isnum : Bool) (s : List Char) :
    (parsenumLoop num isnum s).2.2.length ≤ s.length := by
  induction s generalizing num isnum with
  | nil => simp [parsenumLoop]
  | cons ch rest ih =>
    unfold parsenumLoop
    split
    · split
      · simp
      · exact Nat.le_succ_of_le (ih _ _)
    · exact le_refl _

theorem argNumber_length (format : List Char) (g : Bool) :
    (argNumber format g).1.length ≤ format.length := by
  unfold argNumber
  split
  · simp
  · exact le_refl _

theorem doPrintfWidth_length (format : List Char) (a g : Bool) :
    (doPrintfWidth format a g).2.1.length ≤ format.length := by
  unfold doPrintfWidth
  split
  · simp
  · exact parsenumLoop_length _ _ _

theorem doPrintfPrec_length (format : List Char) (a g : Bool) :
    (doPrintfPrec format a g).2.1.length ≤ format.length := by
  unfold doPrintfPrec
  split
  · rename_i next rest
    have h1 := argNumber_length (next :: rest) (if a then false else g)
    generalize argNumber (next :: rest) (if a then false else g) = r at h1 ⊢
    simp only []
    split
    · rename_i rest' heq
      rw [heq] at h1
      simp only [List.length_cons] at h1 ⊢
      omega
    · have h2 := parsenumLoop_length 0 false r.1
      simp only [parsenum, List.length_cons] at h1 h2 ⊢
      omega
  · exact le_refl _

/-- A verb never leaves more of the format than it was given. -/
theorem doPrintfVerb_length (format : List Char) :
    (doPrintfVerb format).2.length ≤ format.length := by
  have h1 : (format.dropWhile isFlag).length ≤ format.length :=
    (List.dropWhile_sublist _).length_le
  have h2 := argNumber_length (format.dropWhile isFlag) true
  have h3 := doPrintfWidth_length (argNumber (format.dropWhile isFlag) true).1
    (argNumber (format.dropWhile isFlag) true).2.1 (argNumber (format.dropWhile isFlag) true).2.2
  generalize hw : doPrintfWidth (argNumber (format.dropWhile isFlag) true).1
    (argNumber (format.dropWhile isFlag) true).2.1
    (argNumber (format.dropWhile isFlag) true).2.2 = w at h3
  have h4 := doPrintfPrec_length w.2.1 w.2.2.1 w.2.2.2
  generalize hp : doPrintfPrec w.2.1 w.2.2.1 w.2.2.2 = p at h4
  have h5 : (if p.2.2.1 then (p.2.1, true, p.2.2.2) else argNumber p.2.1 p.2.2.2).1.length
      ≤ p.2.1.length := by
    split
    · exact le_refl _
    · exact argNumber_length _ _
  unfold doPrintfVerb
  simp only [hw, hp]
  generalize (if p.2.2.1 then (p.2.1, true, p.2.2.2) else argNumber p.2.1 p.2.2.2) = b at h5
  split
  · simp
  · rename_i verb rest heq
    rw [heq] at h5
    simp only [List.length_cons] at h5
    split
    · simp only []
      omega
    · split <;> simp only [] <;> omega

/-- The fuel that `Fprintf` gives to the format loop is enough: more fuel gives the same
text. -/
theorem doPrintfLoop_fuel (fuel : Nat) (format : List Char) (h : format.length < fuel) :
    doPrintfLoop fuel format = doPrintfLoop (format.length + 1) format := by
  induction fuel using Nat.strong_induction_on generalizing format with
  | _ fuel ih =>
    cases fuel with
    | zero => omega
    | succ fuel =>
      simp only [doPrintfLoop]
      split
      · rfl
      · rename_i x after heq
        have hdrop : (format.dropWhile (fun ch => ch != '%')).length ≤ format.length :=
          (List.dropWhile_sublist _).length_le
        rw [heq] at hdrop
        simp only [List.length_cons] at hdrop
        have hv := doPrintfVerb_length after
        rw [ih fuel (Nat.lt_succ_self _) _ (by omega)]
        cases hfl : format.length with
        | zero => omega
        | succ n =>
          rw [ih (n + 1) (by omega) _ (by omega)]

/-- A format string without any `%` is written as it is. -/
theorem Fprintf_no_percent (s : String) (h : ∀ ch ∈ s.data, ch ≠ '%') : Fprintf s = s := by
  simp [Fprintf, doPrintfLoop_no_percent _ _ h]

/-! ### Reachable cache states -/

/-- Every reachable cache keeps the default expiration of five minutes and holds no item
under the key of a request with an empty identifier. -/
theorem reachable_inv {Iban ValidationResult Repo : Type}
    (d : Collaborators Iban ValidationResult Repo) (c0 : Cache) (h : Reachable d c0) :
    c0.defaultExpiration = 5 * Minute ∧
      ∀ g v : Bool, mapGet c0.items (cacheKey "" g v) = none := by
  induction h with
  | start => exact ⟨by decide, fun g v => rfl⟩
  | handle c1 now r _ ih =>
    cases hget : c1.Get now (cacheKey r.iban (toBoolean r.getBIC) (toBoolean r.validateBankCode)) with
    | some val =>
      rw [validationHandler_hit d c1 now r val hget]
      exact ih
    | none =>
      by_cases he : r.iban = ""
      · rw [validationHandler_empty d c1 now r he hget]
        exact ih
      · obtain ⟨strRes, calls, hh⟩ := validationHandler_miss d c1 now r he hget
        rw [hh]
        refine ⟨ih.1, fun g v => ?_⟩
        have hk : cacheKey r.iban (toBoolean r.getBIC) (toBoolean r.validateBankCode)
            ≠ cacheKey "" g v := fun hk => he (cacheKey_inj hk).1
        simp only [Cache.Set]
        rw [mapGet_mapSet_ne _ _ _ _ hk]
        exact ih.2 g v

/-- In a reachable cache a request with an empty identifier misses at any time. -/
theorem reachable_empty_miss {Iban ValidationResult Repo : Type}
    (d : Collaborators Iban ValidationResult Repo) (c0 : Cache) (h : Reachable d c0)
    (now : Int) (g v : Bool) : c0.Get now (cacheKey "" g v) = none := by
  simp [Cache.Get, (reachable_inv d c0 h).2 g v]

/-! ### The claims -/

/-- A request with a non-empty identifier that misses the cache and is handled again within
five minutes hits the cache the second time: no collaborator is called, and the bytes handed
to `Write` are those of the first call. -/
theorem validationHandler_second_call {Iban ValidationResult Repo : Type}
    (d : Collaborators Iban ValidationResult Repo) (c0 : Cache) (t1 t2 : Int) (r : Request)
    (hne : r.iban ≠ "")
    (hde : c0.defaultExpiration = 5 * Minute)
    (hmiss : c0.Get t1 (cacheKey r.iban (toBoolean r.getBIC) (toBoolean r.validateBankCode))
      = none)
    (hlive : t2 ≤ t1 + 5 * Minute) :
    (validationHandler d (validationHandler d c0 t1 r).cache t2 r).response.written
        = (validationHandler d c0 t1 r).response.written ∧
      (validationHandler d (validationHandler d c0 t1 r).cache t2 r).response.delivered
        = (validationHandler d c0 t1 r).response.written ∧
      (validationHandler d (validationHandler d c0 t1 r).cache t2 r).calls = [] := by
  obtain ⟨strRes, calls, hh⟩ := validationHandler_miss d c0 t1 r hne hmiss
  rw [hh]
  have hhit := get_set_zero_live c0 t1 t2
    (cacheKey r.iban (toBoolean r.getBIC) (toBoolean r.validateBankCode)) strRes hde hlive
  rw [validationHandler_hit d _ t2 r strRes hhit]
  exact ⟨rfl, rfl, rfl⟩

/-- When the stored body has no `%`, the first call sends exactly that body, and so does a
second call within five minutes. -/
theorem validationHandler_second_call_no_percent {Iban ValidationResult Repo : Type}
    (d : Collaborators Iban ValidationResult Repo) (c0 : Cache) (t1 t2 : Int) (r : Request)
    (hne : r.iban ≠ "")
    (hde : c0.defaultExpiration = 5 * Minute)
    (hmiss : c0.Get t1 (cacheKey r.iban (toBoolean r.getBIC) (toBoolean r.validateBankCode))
      = none)
    (hlive : t2 ≤ t1 + 5 * Minute) :
    ∃ strRes : String,
      (validationHandler d c0 t1 r).cache
        = c0.Set t1 (cacheKey r.iban (toBoolean r.getBIC) (toBoolean r.validateBankCode))
            strRes 0 ∧
      ((∀ ch ∈ strRes.data, ch ≠ '%') →
        (validationHandler d c0 t1 r).response.delivered = strRes ∧
        (validationHandler d (validationHandler d c0 t1 r).cache t2 r).response.delivered
          = strRes) := by
  obtain ⟨strRes, calls, hh⟩ := validationHandler_miss d c0 t1 r hne hmiss
  refine ⟨strRes, by rw [hh], fun hno => ?_⟩
  have hf := Fprintf_no_percent strRes hno
  have hhit := get_set_zero_live c0 t1 t2
    (cacheKey r.iban (toBoolean r.getBIC) (toBoolean r.validateBankCode)) strRes hde hlive
  rw [hh, validationHandler_hit d _ t2 r strRes hhit]
  simp [Response.delivered, jsonHeader, hf]

/-- C2, evaluated on the request for the identifier `"%d"`, handled at time 0 on the initial
cache and again one nanosecond later. The first call announces `Content-Length` 84 (the JSON
text it stores) and hands 94 bytes to `Write`, `%!d(MISSING)` standing in place of `%d`; the
server refuses that `Write`, so the first body sent is empty. The second call hits the
cache, calls no collaborator, announces no length and sends the 94 bytes. The two bodies
differ. -/
theorem repeated_request_body_differs :
    (validationHandler sample c 0
        { iban := "%d", validateBankCode := "", getBIC := "" }).response.header.contentLength
      = some 84 ∧
    (validationHandler sample c 0
        { iban := "%d", validateBankCode := "", getBIC := "" }).response.written.utf8ByteSize
      = 94 ∧
    (validationHandler sample c 0
        { iban := "%d", validateBankCode := "", getBIC := "" }).response.delivered = "" ∧
    (validationHandler sample (validationHandler sample c 0
        { iban := "%d", validateBankCode := "", getBIC := "" }).cache 1
        { iban := "%d", validateBankCode := "", getBIC := "" }).response.delivered
      = sampleMarshal (sample.NewValidationResult false
          "Cannot parse as IBAN: too short" "%!d(MISSING)") ∧
    (validationHandler sample (validationHandler sample c 0
        { iban := "%d", validateBankCode := "", getBIC := "" }).cache 1
        { iban := "%d", validateBankCode := "", getBIC := "" }).response.delivered
      ≠ (validationHandler sample c 0
        { iban := "%d", validateBankCode := "", getBIC := "" }).response.delivered ∧
    (validationHandler sample (validationHandler sample c 0
        { iban := "%d", validateBankCode := "", getBIC := "" }).cache 1
        { iban := "%d", validateBankCode := "", getBIC := "" }).calls = [] := by
  decide

/-- In every cache state reachable from the initial cache, a call of the handler with an empty
identifier misses the cache, goes through `http.Error` with status 400, calls no collaborator
and leaves the cache unchanged, at any time and however often it is repeated. -/
theorem empty_request_never_cached {Iban ValidationResult Repo : Type}
    (d : Collaborators Iban ValidationResult Repo) (c0 : Cache) (hreach : Reachable d c0)
    (now : Int) (r : Request) (he : r.iban = "") :
    hitCache c0 now (cacheKey r.iban (toBoolean r.getBIC) (toBoolean r.validateBankCode))
        = ("", false) ∧
      (validationHandler d c0 now r).response.status = 400 ∧
      (validationHandler d c0 now r).response.written
        = marshalled d (d.NewValidationResult false "Empty request." "") ++ "\n" ∧
      (validationHandler d c0 now r).calls = [] ∧
      (validationHandler d c0 now r).cache = c0 ∧
      ∀ later : Int,
        hitCache (validationHandler d c0 now r).cache later
            (cacheKey r.iban (toBoolean r.getBIC) (toBoolean r.validateBankCode))
          = ("", false) ∧
        validationHandler d (validationHandler d c0 now r).cache later r
          = validationHandler d c0 now r := by
  have hmiss : ∀ t : Int,
      c0.Get t (cacheKey r.iban (toBoolean r.getBIC) (toBoolean r.validateBankCode)) = none := by
    intro t
    rw [he]
    exact reachable_empty_miss d c0 hreach t _ _
  have hh : ∀ t : Int, validationHandler d c0 t r = _ :=
    fun t => validationHandler_empty d c0 t r he (hmiss t)
  refine ⟨hitCache_eq_of_get_none _ _ _ (hmiss now), ?_, ?_, ?_, ?_, ?_⟩
  · rw [hh now]
  · rw [hh now]
  · rw [hh now]
  · rw [hh now]
  · intro later
    rw [hh now]
    exact ⟨hitCache_eq_of_get_none _ _ _ (hmiss later), hh later⟩

/-- The router never calls the handler with an empty identifier. -/
theorem routeParam_ne_empty (path : String) : routeParam path ≠ some "" := by
  unfold routeParam
  split
  · simp only []
    split
    · simp
    · split
      · simp
      · rename_i hseg _
        intro h
        simp only [Option.some.injEq] at h
        exact hseg (congrArg String.data h)
  · simp

/-- C3, evaluated on `GET /validate/`, the request with an empty identifier: the route
`/validate/:iban` does not match it, so the router answers by itself and `validationHandler`
is not called; no path makes the router call the handler with an empty identifier. The
branch of the handler for the empty identifier, called directly, sends status 400 through
`http.Error`: the content type is plain text, not JSON, and the 66 bytes written are the
65 bytes of the JSON text, which line 201 announced as the length, and a newline. -/
theorem empty_identifier_not_routed :
    routeParam "/validate/" = none ∧
    serveGet sample c 0 "/validate/" "" "" = Served.notHandled ∧
    (∀ path : String, routeParam path ≠ some "") ∧
    routeParam "/validate/DE89" = some "DE89" ∧
    (validationHandler sample c 0 { iban := "", validateBankCode := "", getBIC := "" })
      = { response :=
            { status := 400
              header :=
                { contentType := some "text/plain; charset=utf-8"
                  accessControlAllowOrigin := some "*"
                  contentLength := none
                  xContentTypeOptions := some "nosniff" }
              written := marshalled sample
                (sample.NewValidationResult false "Empty request." "") ++ "\n" }
          cache := c, calls := [] } ∧
    (marshalled sample (sample.NewValidationResult false "Empty request." "")).utf8ByteSize
      = 65 ∧
    (validationHandler sample c 0
        { iban := "", validateBankCode := "", getBIC := "" }).response.written.utf8ByteSize
      = 66 := by
  refine ⟨by decide, by decide, routeParam_ne_empty, by decide, by decide, by decide, by decide⟩

/-- C4, as stated, fails: a body stored at time 0 is no longer found one nanosecond after
five minutes, and the same request is then processed again instead of hitting the cache. -/
theorem stored_entry_gone_after_five_minutes :
    (validationHandler sample c 0
        { iban := "DE89", validateBankCode := "", getBIC := "" }).cache.Get (5 * Minute + 1)
        (cacheKey "DE89" false false) = none ∧
    (validationHandler sample (validationHandler sample c 0
        { iban := "DE89", validateBankCode := "", getBIC := "" }).cache (5 * Minute + 1)
        { iban := "DE89", validateBankCode := "", getBIC := "" }).calls = [Call.IsParseable] := by
  decide

/-- C4 (amended): every entry `validationHandler` stores is stored with duration 0, which on
the cache built by `cache.New(5*time.Minute, 30*time.Second)` selects the default expiration
of five minutes: for a non-empty identifier that misses at a time `now` (not before the
epoch), the stored item holds the body with expiration `now + 5 min`; a lookup of its key
finds that body at every time up to `now + 5 min` and reports it absent afterwards. -/
theorem stored_entry_expires_after_default {Iban ValidationResult Repo : Type}
    (d : Collaborators Iban ValidationResult Repo) (c0 : Cache) (now : Int) (r : Request)
    (hne : r.iban ≠ "")
    (hde : c0.defaultExpiration = 5 * Minute)
    (hnow : 0 ≤ now)
    (hmiss : c0.Get now (cacheKey r.iban (toBoolean r.getBIC) (toBoolean r.validateBankCode))
      = none) :
    ∃ strRes : String,
      (validationHandler d c0 now r).response.written = Fprintf strRes ∧
      (validationHandler d c0 now r).cache
        = c0.Set now (cacheKey r.iban (toBoolean r.getBIC) (toBoolean r.validateBankCode))
            strRes 0 ∧
      mapGet (validationHandler d c0 now r).cache.items
          (cacheKey r.iban (toBoolean r.getBIC) (toBoolean r.validateBankCode))
        = some { Object := strRes, Expiration := now + 5 * Minute } ∧
      (∀ t : Int, t ≤ now + 5 * Minute →
        (validationHandler d c0 now r).cache.Get t
          (cacheKey r.iban (toBoolean r.getBIC) (toBoolean r.validateBankCode)) = some strRes) ∧
      (∀ t : Int, now + 5 * Minute < t →
        (validationHandler d c0 now r).cache.Get t
          (cacheKey r.iban (toBoolean r.getBIC) (toBoolean r.validateBankCode)) = none) := by
  obtain ⟨strRes, calls, hh⟩ := validationHandler_miss d c0 now r hne hmiss
  refine ⟨strRes, ?_, ?_, ?_, ?_, ?_⟩
  · rw [hh]
  · rw [hh]
  · rw [hh]
    have h5 : (5 * Minute : Int) > 0 := by decide
    simp [Cache.Set, DefaultExpiration, hde, mapGet_mapSet_self, h5]
  · intro t ht
    rw [hh]
    exact get_set_zero_live c0 now t _ strRes hde ht
  · intro t ht
    rw [hh]
    exact get_set_zero_expired c0 now t _ strRes hde hnow ht

/-- Witness for `stored_entry_expires_after_default`: the request for `"DE89"` handled at
time 0 on the initial cache. -/
theorem stored_entry_expires_after_default_witness :
    (("DE89" : String) ≠ "" ∧ c.defaultExpiration = 5 * Minute ∧ (0 : Int) ≤ 0 ∧
      c.Get 0 (cacheKey "DE89" (toBoolean "") (toBoolean "")) = none) ∧
    ∃ strRes : String,
      (validationHandler sample c 0
        { iban := "DE89", validateBankCode := "", getBIC := "" }).response.written
          = Fprintf strRes ∧
      (∀ t : Int, t ≤ 0 + 5 * Minute →
        (validationHandler sample c 0
          { iban := "DE89", validateBankCode := "", getBIC := "" }).cache.Get t
          (cacheKey "DE89" (toBoolean "") (toBoolean "")) = some strRes) ∧
      (∀ t : Int, 0 + 5 * Minute < t →
        (validationHandler sample c 0
          { iban := "DE89", validateBankCode := "", getBIC := "" }).cache.Get t
          (cacheKey "DE89" (toBoolean "") (toBoolean "")) = none) :=
  ⟨⟨by decide, by decide, by decide, by decide⟩,
   (stored_entry_expires_after_default sample c 0
      { iban := "DE89", validateBankCode := "", getBIC := "" }
      (by decide) (by decide) (by decide) (by decide)).imp
    (fun _ h => ⟨h.1, h.2.2.2.1, h.2.2.2.2⟩)⟩

/-- C5, evaluated on the request for the identifier `"%d"`: the first handling stores the JSON
text with `"iban": "%d"`; the second handling hits the cache, and the bytes it writes have
`%!d(MISSING)` in place of `%d`, so they differ from the stored body; no length is announced
on a hit, so these bytes are what the server sends. -/
theorem cache_hit_body_not_verbatim :
    (validationHandler sample c 0
        { iban := "%d", validateBankCode := "", getBIC := "" }).cache.Get 1
        (cacheKey "%d" false false)
      = some (sampleMarshal (sample.NewValidationResult false
          "Cannot parse as IBAN: too short" "%d")) ∧
    (validationHandler sample (validationHandler sample c 0
        { iban := "%d", validateBankCode := "", getBIC := "" }).cache 1
        { iban := "%d", validateBankCode := "", getBIC := "" })
      = { response :=
            { status := 200, header := jsonHeader
              written := sampleMarshal (sample.NewValidationResult false
                "Cannot parse as IBAN: too short" "%!d(MISSING)") }
          cache := (validationHandler sample c 0
            { iban := "%d", validateBankCode := "", getBIC := "" }).cache
          calls := [] } ∧
    (validationHandler sample (validationHandler sample c 0
        { iban := "%d", validateBankCode := "", getBIC := "" }).cache 1
        { iban := "%d", validateBankCode := "", getBIC := "" }).response.delivered
      = sampleMarshal (sample.NewValidationResult false
          "Cannot parse as IBAN: too short" "%!d(MISSING)") ∧
    Fprintf "%d" = "%!d(MISSING)" ∧
    Fprintf "%d" ≠ "%d" := by
  decide

/-- C7, evaluated on the request for the identifier `"%d"`, which misses the cache and is
rejected by `IsParseable`: the body stored (and announced in `Content-Length`) is the JSON
text, but the body written has `%!d(MISSING)` in place of `%d`; being longer than the
announced length, it is refused by the server, which sends an empty body. Only `IsParseable`
is called. -/
theorem unparseable_body_not_json :
    (validationHandler sample c 0 { iban := "%d", validateBankCode := "", getBIC := "" })
      = { response :=
            { status := 200
              header := { jsonHeader with
                contentLength := some (sampleMarshal (sample.NewValidationResult false
                  "Cannot parse as IBAN: too short" "%d")).utf8ByteSize }
              written := sampleMarshal (sample.NewValidationResult false
                "Cannot parse as IBAN: too short" "%!d(MISSING)") }
          cache := c.Set 0 (cacheKey "%d" false false)
            (sampleMarshal (sample.NewValidationResult false
              "Cannot parse as IBAN: too short" "%d")) 0
          calls := [Call.IsParseable] } ∧
    (validationHandler sample c 0
        { iban := "%d", validateBankCode := "", getBIC := "" }).response.written
      ≠ marshalled sample (sample.NewValidationResult false
          ("Cannot parse as IBAN: " ++ (sample.IsParseable "%d").Message) "%d") ∧
    (validationHandler sample c 0
        { iban := "%d", validateBankCode := "", getBIC := "" }).response.delivered = "" ∧
    (validationHandler sample c 0
        { iban := "%d", validateBankCode := "", getBIC := "" }).response.delivered
      ≠ marshalled sample (sample.NewValidationResult false
          ("Cannot parse as IBAN: " ++ (sample.IsParseable "%d").Message) "%d") := by
  decide

/-- C8: with the `config` map that `validationHandler` builds (both keys set), enrichment
returns the base result when both flags are false, applies only `ValidateBankCode` or only
`GetBic` when one flag is set, and applies `ValidateBankCode` first and `GetBic` to its result
when both are set; the calls made are exactly those, in that order. -/
theorem additionalData_conditional_ordered {Iban ValidationResult Repo : Type}
    (d : Collaborators Iban ValidationResult Repo) (p : Iban) (res : ValidationResult) :
    additionalData d p res (mapSet (mapSet [] "validateBankCode" false) "getBIC" false)
        = (res, []) ∧
      additionalData d p res (mapSet (mapSet [] "validateBankCode" true) "getBIC" false)
        = (d.ValidateBankCode p res d.repo, [Call.ValidateBankCode]) ∧
      additionalData d p res (mapSet (mapSet [] "validateBankCode" false) "getBIC" true)
        = (d.GetBic p res d.repo, [Call.GetBic]) ∧
      additionalData d p res (mapSet (mapSet [] "validateBankCode" true) "getBIC" true)
        = (d.GetBic p (d.ValidateBankCode p res d.repo) d.repo,
            [Call.ValidateBankCode, Call.GetBic]) ∧
      ∀ r : Request, requestConfig r
        = mapSet (mapSet [] "validateBankCode" (toBoolean r.validateBankCode)) "getBIC"
            (toBoolean r.getBIC) := by
  have hne : ("getBIC" : String) ≠ "validateBankCode" := by decide
  refine ⟨?_, ?_, ?_, ?_, fun r => rfl⟩ <;>
    simp [additionalData, mapGet_mapSet_self, mapGet_mapSet_ne _ _ _ _ hne]

/-! ### Decimal text of a pid -/

theorem digitVal_digitChar (n : Nat) (h : n < 10) : digitVal (digitChar n) = some n := by
  interval_cases n <;> decide

theorem parseDigits_snoc (xs : List Char) (ch : Char) (n m v : Nat)
    (hxs : parseDigits xs n = some m) (hch : digitVal ch = some v) :
    parseDigits (xs ++ [ch]) n = some (m * 10 + v) := by
  induction xs generalizing n with
  | nil =>
    simp only [parseDigits, Option.some.injEq] at hxs
    simp [parseDigits, hch, hxs]
  | cons x rest ih =>
    simp only [List.cons_append, parseDigits] at hxs ⊢
    cases hx : digitVal x with
    | none => simp [hx] at hxs
    | some w =>
      simp only [hx] at hxs ⊢
      exact ih _ hxs

theorem parseDigits_fmtDecimal (fuel u : Nat) (h : u ≤ fuel) :
    parseDigits (fmtDecimal fuel u) 0 = some u := by
  induction fuel generalizing u with
  | zero =>
    have hu : u = 0 := by omega
    subst hu
    decide
  | succ fuel ih =>
    unfold fmtDecimal
    by_cases h10 : u ≥ 10
    · simp only [h10, if_true]
      have hrec := ih (u / 10) (by omega)
      have hd := digitVal_digitChar (u % 10) (Nat.mod_lt _ (by decide))
      rw [parseDigits_snoc _ _ _ _ _ hrec hd]
      congr 1
      omega
    · simp only [h10, if_false]
      simp [parseDigits, digitVal_digitChar u (by omega)]

theorem fmtDecimal_head (fuel u : Nat) :
    ∃ (ch : Char) (rest : List Char),
      fmtDecimal fuel u = ch :: rest ∧ ch ≠ '-' ∧ ch ≠ '+' := by
  have hdc : ∀ n : Nat, digitChar n ≠ '-' ∧ digitChar n ≠ '+' := by
    intro n
    unfold digitChar
    split <;> decide
  induction fuel generalizing u with
  | zero => exact ⟨_, [], rfl, hdc u⟩
  | succ fuel ih =>
    unfold fmtDecimal
    by_cases h10 : u ≥ 10
    · obtain ⟨ch, rest, he, hc⟩ := ih (u / 10)
      exact ⟨ch, rest ++ [digitChar (u % 10)], by simp [h10, he], hc⟩
    · exact ⟨_, [], by simp [h10], hdc u⟩

/-- Reading back the decimal text of a non-negative Go `int` gives that number. -/
theorem Atoi_formatInt (n : Int) (h0 : 0 ≤ n) (hmax : n < 2 ^ 63) :
    Atoi (formatInt n) = some n := by
  have hneg : ¬ n < 0 := by omega
  obtain ⟨ch, rest, he, hm, hp⟩ := fmtDecimal_head n.toNat n.toNat
  have hparse := parseDigits_fmtDecimal n.toNat n.toNat (le_refl _)
  have hlt : n.toNat < 9223372036854775808 := by omega
  have hcast : ((n.toNat : Nat) : Int) = n := Int.toNat_of_nonneg h0
  unfold Atoi formatInt
  simp only [hneg, if_false]
  rw [he] at hparse ⊢
  split
  · rename_i heq
    simp at heq
  · rename_i heq
    simp only [List.cons.injEq] at heq
    exact absurd heq.1 hm
  · rename_i heq
    simp only [List.cons.injEq] at heq
    exact absurd heq.1 hp
  · simp [hparse, hlt, hcast]

theorem formatInt_data_length_pos (n : Int) : (formatInt n).data.length ≠ 0 := by
  unfold formatInt
  split
  · simp
  · obtain ⟨ch, rest, he, _⟩ := fmtDecimal_head n.toNat n.toNat
    simp [he]

/-! ### CreatePidfile, path by path -/

theorem Env.noFaults_iff (e : Env) :
    e.noFaults = true ↔
      e.mkdirAllFails = false ∧ e.statFails = false ∧ e.openFails = false ∧
      e.readFails = false ∧ e.truncateFails = false ∧ e.seekFails = false ∧
      e.writeFails = false := by
  simp [Env.noFaults, and_assoc]

/-- On a missing or empty file, and without failing file operations, the pid is written. -/
theorem CreatePidfile_fresh (e : Env) (pidFile : String) (file : Option String)
    (hpath : pidFile ≠ "") (hfile : file = none ∨ file = some "")
    (hok : e.noFaults = true) :
    CreatePidfile e pidFile file = { fatal := none, file := some (formatInt e.pid) } := by
  obtain ⟨h1, h2, h3, h4, h5, h6, h7⟩ := (Env.noFaults_iff e).1 hok
  have hdata : (file.getD "").data = [] := by
    rcases hfile with h | h <;> subst h <;> rfl
  simp [CreatePidfile, hpath, h1, h2, h3, h4, h5, h6, h7, hdata, OpenFile.ReadAll,
    checkRunning, OpenFile.Truncate0, OpenFile.Seek0, OpenFile.Write]

theorem checkRunning_formatInt (e : Env) (q : Int) (h0 : 0 ≤ q) (hmax : q < 2 ^ 63) :
    checkRunning e (formatInt q).data =
      match e.probe q with
      | Probe.lookupError => some (Fatal.failedToFindProcess q)
      | Probe.alive => some (Fatal.stillRunning q)
      | Probe.signalError => none := by
  have hlen := formatInt_data_length_pos q
  have hparse : Atoi (String.mk (formatInt q).data) = some q := Atoi_formatInt q h0 hmax
  simp only [checkRunning, hlen, if_false, hparse]

/-- On a file that holds the decimal text of a pid `q`, when the file can be opened and read:
the outcome is decided by the probe of `q`. -/
theorem CreatePidfile_existing (e : Env) (pidFile : String) (q : Int)
    (hpath : pidFile ≠ "") (h0 : 0 ≤ q) (hmax : q < 2 ^ 63)
    (h1 : e.mkdirAllFails = false) (h2 : e.statFails = false) (h3 : e.openFails = false)
    (h4 : e.readFails = false) :
    (e.probe q = Probe.alive →
      CreatePidfile e pidFile (some (formatInt q))
        = { fatal := some (Fatal.stillRunning q), file := some (formatInt q) }) ∧
    (e.probe q = Probe.lookupError →
      CreatePidfile e pidFile (some (formatInt q))
        = { fatal := some (Fatal.failedToFindProcess q), file := some (formatInt q) }) ∧
    (e.probe q = Probe.signalError → e.truncateFails = false → e.seekFails = false →
      e.writeFails = false →
      CreatePidfile e pidFile (some (formatInt q))
        = { fatal := none, file := some (formatInt e.pid) }) := by
  have hck := checkRunning_formatInt e q h0 hmax
  refine ⟨fun hp => ?_, fun hp => ?_, fun hp h5 h6 h7 => ?_⟩
  · rw [hp] at hck
    simp [CreatePidfile, hpath, h1, h2, h3, h4, OpenFile.ReadAll, hck]
  · rw [hp] at hck
    simp [CreatePidfile, hpath, h1, h2, h3, h4, OpenFile.ReadAll, hck]
  · rw [hp] at hck
    simp [CreatePidfile, hpath, h1, h2, h3, h4, h5, h6, h7, OpenFile.ReadAll, hck,
      OpenFile.Truncate0, OpenFile.Seek0, OpenFile.Write]

/-- Whatever fails, a run on a file that holds the pid of a live process ends fatally and
leaves the file as it was. -/
theorem CreatePidfile_live_fatal (e : Env) (pidFile : String) (q : Int)
    (hpath : pidFile ≠ "") (h0 : 0 ≤ q) (hmax : q < 2 ^ 63)
    (halive : e.probe q = Probe.alive) :
    (CreatePidfile e pidFile (some (formatInt q))).fatal ≠ none ∧
      (CreatePidfile e pidFile (some (formatInt q))).file = some (formatInt q) := by
  have hck := checkRunning_formatInt e q h0 hmax
  rw [halive] at hck
  unfold CreatePidfile
  simp only [hpath, ne_eq, not_false_eq_true, if_true]
  by_cases h1 : e.mkdirAllFails = true
  · simp [h1]
  by_cases h2 : e.statFails = true
  · simp [h1, h2]
  by_cases h3 : e.openFails = true
  · simp [h1, h2, h3]
  by_cases h4 : e.readFails = true
  · simp [h1, h2, h3, h4]
  simp [h1, h2, h3, h4, OpenFile.ReadAll, hck]

/-- C9: on a pid file that is absent or empty, `CreatePidfile` run by process `p` (no file
operation failing) succeeds and leaves exactly the decimal text of `p`; a second run on that
file while `p` is alive ends fatally and leaves the file unchanged, whatever else fails; when
the file can be opened and read, the fatal error is the one that names the pid `p` read back;
and `main` then never reaches `listen()`. -/
theorem CreatePidfile_double_start (e1 e2 : Env) (pidFile : String) (file : Option String)
    (hpath : pidFile ≠ "") (hfile : file = none ∨ file = some "")
    (hok : e1.noFaults = true) (h0 : 0 ≤ e1.pid) (hmax : e1.pid < 2 ^ 63)
    (halive : e2.probe e1.pid = Probe.alive) :
    CreatePidfile e1 pidFile file = { fatal := none, file := some (formatInt e1.pid) } ∧
      (CreatePidfile e2 pidFile (CreatePidfile e1 pidFile file).file).fatal ≠ none ∧
      (CreatePidfile e2 pidFile (CreatePidfile e1 pidFile file).file).file
        = some (formatInt e1.pid) ∧
      (e2.noFaults = true →
        CreatePidfile e2 pidFile (CreatePidfile e1 pidFile file).file
          = { fatal := some (Fatal.stillRunning e1.pid), file := some (formatInt e1.pid) }) ∧
      (∀ help printVersion : Bool,
        mainReachesListen help printVersion e2 pidFile (CreatePidfile e1 pidFile file).file
          = false) := by
  have hfirst := CreatePidfile_fresh e1 pidFile file hpath hfile hok
  have hsecond := CreatePidfile_live_fatal e2 pidFile e1.pid hpath h0 hmax halive
  rw [hfirst]
  refine ⟨rfl, hsecond.1, hsecond.2, fun hok2 => ?_, fun help printVersion => ?_⟩
  · obtain ⟨h1, h2, h3, h4, _⟩ := (Env.noFaults_iff e2).1 hok2
    exact (CreatePidfile_existing e2 pidFile e1.pid hpath h0 hmax h1 h2 h3 h4).1 halive
  · have hf := hsecond.1
    cases hfat : (CreatePidfile e2 pidFile (some (formatInt e1.pid))).fatal with
    | none => exact absurd hfat hf
    | some x => simp [mainReachesListen, hpath, hfat]

/-- Witness for `CreatePidfile_double_start`: process 4711 starts on a missing file, then
process 4712 starts while 4711 is alive. -/
theorem CreatePidfile_double_start_witness :
    (("/run/iban.pid" : String) ≠ "" ∧ ((none : Option String) = none ∨ none = some "") ∧
      (sampleEnv 4711 (fun _ => Probe.signalError)).noFaults = true ∧
      (0 : Int) ≤ (sampleEnv 4711 (fun _ => Probe.signalError)).pid ∧
      (sampleEnv 4711 (fun _ => Probe.signalError)).pid < 2 ^ 63 ∧
      (sampleEnv 4712 (fun _ => Probe.alive)).probe
        (sampleEnv 4711 (fun _ => Probe.signalError)).pid = Probe.alive) ∧
    CreatePidfile (sampleEnv 4711 (fun _ => Probe.signalError)) "/run/iban.pid" none
      = { fatal := none, file := some "4711" } ∧
    CreatePidfile (sampleEnv 4712 (fun _ => Probe.alive)) "/run/iban.pid" (some "4711")
      = { fatal := some (Fatal.stillRunning 4711), file := some "4711" } :=
  ⟨⟨by decide, Or.inl rfl, by decide, by decide, by decide, rfl⟩,
   (CreatePidfile_double_start (sampleEnv 4711 (fun _ => Probe.signalError))
      (sampleEnv 4712 (fun _ => Probe.alive)) "/run/iban.pid" none
      (by decide) (Or.inl rfl) (by decide) (by decide) (by decide) rfl).1,
   by decide⟩

/-- C10, as stated, fails: on a pid file holding `4711`, with no file operation failing, a
process lookup that returns an error makes `CreatePidfile` end fatally and leaves the old
content in the file. -/
theorem CreatePidfile_lookup_error_fatal :
    (sampleEnv 12 (fun _ => Probe.lookupError)).noFaults = true ∧
    formatInt 4711 = "4711" ∧
    CreatePidfile (sampleEnv 12 (fun _ => Probe.lookupError)) "/run/iban.pid" (some "4711")
      = { fatal := some (Fatal.failedToFindProcess 4711), file := some "4711" } := by
  decide

/-- C10 (amended): on a pid file whose content is the decimal text of a pid `q`, with no file
operation failing: if the process lookup succeeds and the signal-0 probe fails,
`CreatePidfile` returns successfully and the file holds exactly the decimal text of the
current process id; if the process lookup itself returns an error, `CreatePidfile` ends
fatally and the file keeps its content. -/
theorem CreatePidfile_stale_pid (e : Env) (pidFile : String) (q : Int)
    (hpath : pidFile ≠ "") (h0 : 0 ≤ q) (hmax : q < 2 ^ 63) (hok : e.noFaults = true) :
    (e.probe q = Probe.signalError →
      CreatePidfile e pidFile (some (formatInt q))
        = { fatal := none, file := some (formatInt e.pid) }) ∧
    (e.probe q = Probe.lookupError →
      CreatePidfile e pidFile (some (formatInt q))
        = { fatal := some (Fatal.failedToFindProcess q), file := some (formatInt q) }) := by
  obtain ⟨h1, h2, h3, h4, h5, h6, h7⟩ := (Env.noFaults_iff e).1 hok
  have h := CreatePidfile_existing e pidFile q hpath h0 hmax h1 h2 h3 h4
  exact ⟨fun hp => h.2.2 hp h5 h6 h7, h.2.1⟩

/-- Witness for `CreatePidfile_stale_pid`: process 12 starts on a file left by the dead
process 4711. -/
theorem CreatePidfile_stale_pid_witness :
    (("/run/iban.pid" : String) ≠ "" ∧ (0 : Int) ≤ 4711 ∧ (4711 : Int) < 2 ^ 63 ∧
      (sampleEnv 12 (fun _ => Probe.signalError)).noFaults = true ∧
      (sampleEnv 12 (fun _ => Probe.signalError)).probe 4711 = Probe.signalError) ∧
    CreatePidfile (sampleEnv 12 (fun _ => Probe.signalError)) "/run/iban.pid"
        (some (formatInt 4711))
      = { fatal := none, file := some (formatInt 12) } :=
  ⟨⟨by decide, by decide, by decide, by decide, rfl⟩,
   (CreatePidfile_stale_pid (sampleEnv 12 (fun _ => Probe.signalError)) "/run/iban.pid" 4711
      (by decide) (by decide) (by decide) (by decide)).1 rfl⟩

end IbanService
